import Mathlib

/-!
Shallow embedding of the hive account faucet backend
(`backend/services/blockchain-monitor.js`, `backend/services/user-manager.js`,
`backend/admin.js`) and proofs of the specified properties.

JavaScript numbers that hold token counts and block heights are modelled as
`Int` (all arithmetic in range); wall-clock timestamp strings (`created_at`,
`last_used`, `savedAt`) and human-readable result messages are omitted, since
no property refers to them.  File-system reads/writes are modelled as explicit
state passing (the service is the single writer of its data files), and the
network (blockchain RPC, mail transport, memo encryption) is modelled as an
environment record carrying the result each external call would return.
-/

namespace Faucet

/-! ## JavaScript value model for `validateRequest`

`validateRequest(data)` receives the result of `JSON.parse` and combines
strict equality (`===`) with truthiness in a `&&` chain.  A JSON value is
modelled structurally, and the chain's truthiness is returned as a `Bool`. -/

inductive Json where
  | null
  | bool (b : Bool)
  | num (n : Int)
  | str (s : String)
  | arr (elems : List Json)
  | obj (fields : List (String × Json))

/-- JavaScript truthiness of a JSON value (`undefined`, absent from this model,
behaves like `null`; arrays and objects are always truthy; `NaN` does not arise
from `JSON.parse`). -/
def truthy : Json → Bool
  | .null => false
  | .bool b => b
  | .num n => n != 0
  | .str s => s != ""
  | .arr _ => true
  | .obj _ => true

/-- Property access `v.k`: on an object, the field's value or `undefined`
(modelled as `.null`, which is equally falsy and `===`-unequal to any string);
on a primitive or array, `undefined`. -/
def getField : Json → String → Json
  | .obj fields, k =>
      match fields.lookup k with
      | some v => v
      | none => .null
  | _, _ => .null

/-- Strict equality `v === s` against a string literal. -/
def strictEqStr : Json → String → Bool
  | .str s, t => s == t
  | _, _ => false

/-- Embedding of `BlockchainMonitor.validateRequest` (blockchain-monitor.js
lines 280-289), returning the truthiness of the JS `&&` chain. -/
def validateRequest (data : Json) : Bool :=
  strictEqStr (getField data "app") "hive_account_faucet" &&
  strictEqStr (getField data "version") "1.0.0" &&
  strictEqStr (getField data "action") "create_account_request" &&
  truthy (getField data "data") &&
  truthy (getField (getField data "data") "requested_username") &&
  truthy (getField (getField data "data") "delivery_method")

/-! ## Quota Ledger (`user-manager.js`)

The authorized-users file is read, mutated and rewritten by every operation;
that read-modify-write round trip is modelled as explicit state passing on the
loaded `UserData` value.  The `loadData() === null` branch (unreadable file)
makes every mutation return failure without touching state and is outside the
pure model. -/

structure User where
  tokens_allocated : Int
  tokens_used : Int
  tokens_remaining : Int
  email : Option String
  is_active : Bool
deriving DecidableEq, Repr

structure Metadata where
  total_users : Int
  total_tokens_allocated : Int
  total_tokens_used : Int
deriving DecidableEq, Repr

structure UserData where
  authorized_users : List (String × User)
  metadata : Metadata
deriving DecidableEq, Repr

/-- Replacement of the (first) entry for a key, as JS property assignment on an
object whose keys are unique. -/
def updateAssoc (l : List (String × User)) (k : String) (v : User) : List (String × User) :=
  match l with
  | [] => []
  | (k', v') :: rest => if k' == k then (k', v) :: rest else (k', v') :: updateAssoc rest k v

inductive AuthCheck where
  | denied (reason : String)
  | granted (user : User)
deriving DecidableEq, Repr

/-- Embedding of `UserManager.checkAuthorization` (user-manager.js lines
64-101); the granted case carries `user_info`. -/
def checkAuthorization (d : UserData) (username : String) : AuthCheck :=
  match d.authorized_users.lookup username with
  | none => .denied "User not found in authorized list"
  | some user =>
      if !user.is_active then .denied "User account is deactivated"
      else if user.tokens_remaining ≤ 0 then .denied "No tokens remaining"
      else .granted user

/-- Embedding of `UserManager.useToken` (user-manager.js lines 106-125).
Returns the written state and the boolean result. -/
def useToken (d : UserData) (username : String) : UserData × Bool :=
  match d.authorized_users.lookup username with
  | none => (d, false)
  | some user =>
      if user.tokens_remaining ≤ 0 then (d, false)
      else
        let user' : User :=
          { user with
            tokens_used := user.tokens_used + 1
            tokens_remaining := user.tokens_remaining - 1 }
        ({ authorized_users := updateAssoc d.authorized_users username user'
           metadata := { d.metadata with total_tokens_used := d.metadata.total_tokens_used + 1 } },
         true)

/-- Embedding of `UserManager.addUser` (user-manager.js lines 130-158); the
default token grant is 5 and the new entry starts active with zero used. -/
def addUser (d : UserData) (username : String) (tokens : Int) (email : Option String) :
    UserData × Bool :=
  match d.authorized_users.lookup username with
  | some _ => (d, false)
  | none =>
      let newUser : User :=
        { tokens_allocated := tokens
          tokens_used := 0
          tokens_remaining := tokens
          email := email
          is_active := true }
      ({ authorized_users := d.authorized_users ++ [(username, newUser)]
         metadata :=
           { d.metadata with
             total_users := d.metadata.total_users + 1
             total_tokens_allocated := d.metadata.total_tokens_allocated + tokens } },
       true)

/-- Embedding of `UserManager.giveTokens` (user-manager.js lines 163-181). -/
def giveTokens (d : UserData) (username : String) (additionalTokens : Int) :
    UserData × Bool :=
  match d.authorized_users.lookup username with
  | none => (d, false)
  | some user =>
      let user' : User :=
        { user with
          tokens_allocated := user.tokens_allocated + additionalTokens
          tokens_remaining := user.tokens_remaining + additionalTokens }
      ({ authorized_users := updateAssoc d.authorized_users username user'
         metadata :=
           { d.metadata with
             total_tokens_allocated := d.metadata.total_tokens_allocated + additionalTokens } },
       true)

/-- Embedding of `UserManager.setTokens` (user-manager.js lines 186-206):
`tokens_remaining` is recomputed as `newTotal - tokens_used`, with no guard
against `newTotal < tokens_used`. -/
def setTokens (d : UserData) (username : String) (newTotal : Int) : UserData × Bool :=
  match d.authorized_users.lookup username with
  | none => (d, false)
  | some user =>
      let difference := newTotal - user.tokens_allocated
      let user' : User :=
        { user with
          tokens_allocated := newTotal
          tokens_remaining := newTotal - user.tokens_used }
      ({ authorized_users := updateAssoc d.authorized_users username user'
         metadata :=
           { d.metadata with
             total_tokens_allocated := d.metadata.total_tokens_allocated + difference } },
       true)

/-! ## Pending-Credentials Ledger (blockchain-monitor.js lines 60-95)

Contents of `data/pending_credentials.json` modelled as a file state:
`corrupt` covers a missing, unreadable or JSON-malformed file (anything that
makes `readFileSync`/`JSON.parse` throw inside `loadPending`); `parsed none`
is a parse result without a usable `pending` field. -/

structure PendingRecord where
  username : String
  requester : String
  masterPassword : String
  ownerKey : String
  activeKey : String
  postingKey : String
  memoKey : String
  transactionId : String
deriving DecidableEq, Repr

inductive PendingFile where
  | corrupt
  | parsed (pending : Option (List PendingRecord))
deriving DecidableEq, Repr

/-- Embedding of `BlockchainMonitor.loadPending` (lines 69-76): any read or
parse failure, and an absent `pending` field, yield the empty list. -/
def loadPending : PendingFile → List PendingRecord
  | .corrupt => []
  | .parsed none => []
  | .parsed (some l) => l

/-- Embedding of `BlockchainMonitor.savePending` (lines 78-84) at the
file-state level: the file afterwards holds exactly the given list. -/
def savePending (list : List PendingRecord) : PendingFile :=
  .parsed (some list)

/-- Embedding of `BlockchainMonitor.addPending` (lines 86-90). -/
def addPending (fileState : PendingFile) (record : PendingRecord) : PendingFile :=
  savePending (loadPending fileState ++ [record])

/-- Embedding of `BlockchainMonitor.removePending` (lines 92-95). -/
def removePending (fileState : PendingFile) (username : String) : PendingFile :=
  savePending ((loadPending fileState).filter (fun r => r.username != username))

/-! ### File-system action traces

To compare the write discipline of `savePending` (lines 78-84) with that of
`saveLastBlock` (lines 111-123), the sequence of `fs` calls each performs is
recorded as a trace. -/

inductive FsAct (α : Type) where
  | write (path : String) (content : α)
  | rename (src : String) (dst : String)
deriving DecidableEq, Repr

def recoveryFile : String := "data/pending_credentials.json"

def lastBlockFile : String := "data/last_block.json"

/-- fs calls performed by `savePending` (lines 78-84): one direct
`writeFileSync` of the serialized full list to the target path. -/
def savePendingActions (list : List PendingRecord) : List (FsAct (List PendingRecord)) :=
  [.write recoveryFile list]

/-- fs calls performed by `addPending`. -/
def addPendingActions (fileState : PendingFile) (record : PendingRecord) :
    List (FsAct (List PendingRecord)) :=
  savePendingActions (loadPending fileState ++ [record])

/-- fs calls performed by `removePending`. -/
def removePendingActions (fileState : PendingFile) (username : String) :
    List (FsAct (List PendingRecord)) :=
  savePendingActions ((loadPending fileState).filter (fun r => r.username != username))

/-- fs calls performed by `saveLastBlock` (lines 111-123) when it writes: a
`writeFileSync` to `<target>.tmp` followed by `renameSync` onto the target. -/
def saveLastBlockActions (payload : String) : List (FsAct String) :=
  [.write (lastBlockFile ++ ".tmp") payload, .rename (lastBlockFile ++ ".tmp") lastBlockFile]

def writesDirectly {α : Type} (target : String) (acts : List (FsAct α)) : Bool :=
  acts.any fun a =>
    match a with
    | .write p _ => p == target
    | .rename _ _ => false

def renamesOnto {α : Type} (target : String) (acts : List (FsAct α)) : Bool :=
  acts.any fun a =>
    match a with
    | .write _ _ => false
    | .rename _ d => d == target

/-- Modelled from the spec: the temp-file-then-atomic-rename pattern — new
content reaches the target path only through a rename, never by writing the
target directly. -/
def usesTempThenRename {α : Type} (target : String) (acts : List (FsAct α)) : Bool :=
  !writesDirectly target acts && renamesOnto target acts

/-! ## Delivery channels (blockchain-monitor.js lines 376-531)

Results of external calls (mail transport, account lookup, memo encryption,
transfer broadcast) are supplied by an environment record; the functions below
are the faithful control flow of the source around those calls. -/

/-- The result shape resolved by both channels. -/
structure DeliverR where
  success : Bool
  error : Option String
deriving DecidableEq, Repr

/-- Credential fields of `accountData` consulted by `sendAccountMemo`. -/
structure MemoAccountData where
  username : String
  masterPassword : String
deriving DecidableEq, Repr

structure TransferOp where
  fromAcct : String
  toAcct : String
  amount : String
  memo : String
deriving DecidableEq, Repr

/-- Outcomes of the external calls inside `sendAccountMemo`:
`recipientLookup` is `getAccounts` (error, not found, or the recipient's memo
key), `encodeResult` is `hive.memo.encode` (throw or ciphertext), and
`transferResult` is the broadcast callback (error or transfer txid). -/
structure MemoEnv where
  recipientLookup : Except String (Option String)
  encodeResult : Except String String
  transferResult : Except String String
deriving Repr

/-- Substring test `hay.includes(needle)` of JavaScript strings. -/
def containsSub (hay needle : List Char) : Bool :=
  match hay with
  | [] => needle.isEmpty
  | c :: t => needle.isPrefixOf (c :: t) || containsSub t needle

def jsIncludes (hay needle : String) : Bool :=
  containsSub hay.data needle.data

/-- Embedding of `BlockchainMonitor.sendAccountMemo` (lines 449-531).  Returns
the resolved result together with the list of transfer operations actually
handed to `hive.broadcast.transfer` (a broadcast is attempted exactly when the
encrypted memo passed the plaintext-leak check). -/
def sendAccountMemo (env : MemoEnv) (creatingAccount recipientUsername : String)
    (accountData : MemoAccountData) : DeliverR × List TransferOp :=
  match env.recipientLookup with
  | .error e => ({ success := false, error := some e }, [])
  | .ok none =>
      ({ success := false,
         error := some ("Recipient account @" ++ recipientUsername ++ " not found") }, [])
  | .ok (some _recipientMemoKey) =>
      match env.encodeResult with
      | .error e => ({ success := false, error := some e }, [])
      | .ok encryptedMemo =>
          if jsIncludes encryptedMemo accountData.username ||
             jsIncludes encryptedMemo accountData.masterPassword then
            ({ success := false,
               error := some "Memo encryption failed - security risk detected" }, [])
          else
            let op : TransferOp :=
              { fromAcct := creatingAccount
                toAcct := recipientUsername
                amount := "0.001 HBD"
                memo := encryptedMemo }
            match env.transferResult with
            | .error e => ({ success := false, error := some e }, [op])
            | .ok _txid => ({ success := true, error := none }, [op])

/-! ## Request pipeline (`processAccountRequest`, lines 294-444) -/

/-- External-world results consumed by one `processAccountRequest` run:
`masterPassword` and the derived private keys stand for `generateMasterPassword`
and `generateAccountKeys` (randomness/crypto), `creationResult` for
`createHiveAccount` (failure message or creation txid), `emailSendResult` for
`emailService.sendAccountCredentials`, `canSendMemo` for the HBD balance check
(floating-point balance comparison abstracted to its boolean outcome), and
`creatingMemoKey` for the configured private memo key (`none`/empty = falsy). -/
structure MonitorEnv where
  creatingAccount : String
  creatingMemoKey : Option String
  masterPassword : String
  ownerKey : String
  activeKey : String
  postingKey : String
  memoKey : String
  creationResult : Except String String
  emailSendResult : DeliverR
  canSendMemo : Bool
  memoEnv : MemoEnv
deriving Repr

/-- The two data files owned by the service during request processing. -/
structure MonState where
  pendingFile : PendingFile
  users : UserData
deriving DecidableEq, Repr

inductive Outcome where
  | rejectedAuth
  | rejectedCreation (error : String)
  | fulfilled (tokenUsed : Bool)
  | stranded
deriving DecidableEq, Repr

/-- JS truthiness of an optional string (missing, or present and non-empty). -/
def jsTruthyStrOpt : Option String → Bool
  | none => false
  | some s => s != ""

/-- The pending record written before delivery (lines 364-374);
`created_at` (wall clock) is omitted. -/
def pendingRecordFor (env : MonitorEnv) (requester username txid : String) : PendingRecord :=
  { username := username
    requester := requester
    masterPassword := env.masterPassword
    ownerKey := env.ownerKey
    activeKey := env.activeKey
    postingKey := env.postingKey
    memoKey := env.memoKey
    transactionId := txid }

/-- Whitespace-stripping of JS `String.prototype.trim`, written over the
character list so that it evaluates inside the kernel. -/
def jsTrim (s : String) : String :=
  String.mk (((s.data.dropWhile Char.isWhitespace).reverse.dropWhile Char.isWhitespace).reverse)

/-- The EMAIL branch (lines 389-399): requires a registered, non-blank email;
otherwise the channel fails with no send attempted. -/
def emailDelivery (env : MonitorEnv) (user : User) (deliveryMethod : String) : DeliverR :=
  if deliveryMethod == "email" || deliveryMethod == "both" then
    match user.email with
    | some e =>
        if jsTrim e != "" then env.emailSendResult
        else { success := false, error := some "No registered email" }
    | none => { success := false, error := some "No registered email" }
  else { success := false, error := none }

/-- The MEMO branch (lines 402-416): requires sufficient HBD balance and a
configured memo key before `sendAccountMemo` is attempted. -/
def memoDelivery (env : MonitorEnv) (requester username : String)
    (deliveryMethod : String) : DeliverR :=
  if deliveryMethod == "hive_memo" || deliveryMethod == "both" then
    if !env.canSendMemo then
      { success := false, error := some "Insufficient HBD for memo transfer" }
    else if !(jsTruthyStrOpt env.creatingMemoKey) then
      { success := false, error := some "Missing faucet memo key" }
    else
      (sendAccountMemo env.memoEnv env.creatingAccount requester
        { username := username, masterPassword := env.masterPassword }).1
  else { success := false, error := none }

/-- The overall-success policy (lines 418-420). -/
def overallSuccess (deliveryMethod : String) (emailOk memoOk : Bool) : Bool :=
  if deliveryMethod == "both" then emailOk && memoOk else emailOk || memoOk

/-- Embedding of `BlockchainMonitor.processAccountRequest` (lines 294-444):
authorization gate, account creation, pending-record persistence before
delivery, the two delivery channels, and — only on overall success — token
commit followed by pending-record removal. -/
def processAccountRequest (env : MonitorEnv) (st : MonState)
    (requester username deliveryMethod : String) : MonState × Outcome :=
  match checkAuthorization st.users requester with
  | .denied _ => (st, .rejectedAuth)
  | .granted user =>
      match env.creationResult with
      | .error e => (st, .rejectedCreation e)
      | .ok txid =>
          let record := pendingRecordFor env requester username txid
          let st1 : MonState := { st with pendingFile := addPending st.pendingFile record }
          let emailResult := emailDelivery env user deliveryMethod
          let memoResult := memoDelivery env requester username deliveryMethod
          if overallSuccess deliveryMethod emailResult.success memoResult.success then
            let tok := useToken st1.users requester
            ({ pendingFile := removePending st1.pendingFile username, users := tok.1 },
             .fulfilled tok.2)
          else
            (st1, .stranded)

/-! ## Block Pump (`streamBlocks`, lines 156-181)

One loop iteration is a function of the cursor and the outcome of the guarded
region (fetch + processing): a fetched and fully processed block, a miss
(`getBlock` returned nothing), a fetch error, or an error thrown while
processing the fetched block — the latter two both land in the `catch`. -/

inductive FetchResult where
  | block (txCount : Nat)
  | noBlock
  | fetchError (msg : String)
  | processError (msg : String)
deriving DecidableEq, Repr

structure IterResult where
  lastProcessedBlock : Int
  sleptMs : Option Nat
  raised : Option String
deriving DecidableEq, Repr

/-- One iteration of the `while (this.isRunning)` body: the cursor advances to
`lastProcessedBlock + 1` exactly when a block was fetched and processed; a miss
sleeps 3000 ms, a caught error sleeps 5000 ms; nothing is re-thrown. -/
def streamStep (lastProcessedBlock : Int) (fetch : FetchResult) : IterResult :=
  let nextBlock := lastProcessedBlock + 1
  match fetch with
  | .block _ => { lastProcessedBlock := nextBlock, sleptMs := none, raised := none }
  | .noBlock => { lastProcessedBlock := lastProcessedBlock, sleptMs := some 3000, raised := none }
  | .fetchError _ =>
      { lastProcessedBlock := lastProcessedBlock, sleptMs := some 5000, raised := none }
  | .processError _ =>
      { lastProcessedBlock := lastProcessedBlock, sleptMs := some 5000, raised := none }

/-- A run of consecutive iterations, returning the final cursor and the height
requested from `getBlock` at each iteration, in order. -/
def streamRun (lastProcessedBlock : Int) : List FetchResult → Int × List Int
  | [] => (lastProcessedBlock, [])
  | f :: fs =>
      let step := streamStep lastProcessedBlock f
      let rest := streamRun step.lastProcessedBlock fs
      (rest.1, (lastProcessedBlock + 1) :: rest.2)

/-- Count of iterations that fetched and fully processed a block. -/
def countBlocks : List FetchResult → Int
  | [] => 0
  | .block _ :: fs => countBlocks fs + 1
  | _ :: fs => countBlocks fs

/-! ## Invariant predicates on the Quota Ledger -/

/-- Per-requester accounting identity. -/
abbrev SumInv (d : UserData) : Prop :=
  ∀ p ∈ d.authorized_users, p.2.tokens_used + p.2.tokens_remaining = p.2.tokens_allocated

/-- No requester holds a negative remaining balance. -/
abbrev RemNonneg (d : UserData) : Prop :=
  ∀ p ∈ d.authorized_users, 0 ≤ p.2.tokens_remaining

/-- No requester's used counter decreases from `d` to `d'`. -/
def UsedMono (d d' : UserData) : Prop :=
  ∀ k u u', d.authorized_users.lookup k = some u → d'.authorized_users.lookup k = some u' →
    u.tokens_used ≤ u'.tokens_used

/-! ## Concrete inputs used by witnesses and counterexamples -/

def exRecordC2 : PendingRecord :=
  { username := "newuser3"
    requester := "alice"
    masterPassword := "P5x"
    ownerKey := "o"
    activeKey := "a"
    postingKey := "p"
    memoKey := "m"
    transactionId := "T1" }

/-- Concrete environment in which encryption degenerated to plaintext. -/
def exMemoEnvC5 : MemoEnv :=
  { recipientLookup := Except.ok (some "STM8recipientMemoKey")
    encodeResult := Except.ok "#Account created: newuser3 pw P5abc"
    transferResult := Except.ok "tx99" }

/-- Benign memo environment reused by pipeline witnesses. -/
def exMemoEnvOk : MemoEnv :=
  { recipientLookup := Except.ok (some "STM8k")
    encodeResult := Except.ok "#3vK9cipher"
    transferResult := Except.ok "tx1" }

def exUserAlice : User :=
  { tokens_allocated := 5
    tokens_used := 0
    tokens_remaining := 5
    email := some "alice@example.com"
    is_active := true }

def exStateC4 : MonState :=
  { pendingFile := PendingFile.parsed (some [])
    users :=
      { authorized_users := [("alice", exUserAlice)]
        metadata := { total_users := 1, total_tokens_allocated := 5, total_tokens_used := 0 } } }

def exEnvC4 : MonitorEnv :=
  { creatingAccount := "faucet"
    creatingMemoKey := some "5Kmemo"
    masterPassword := "P5abc"
    ownerKey := "5Jo"
    activeKey := "5Ja"
    postingKey := "5Jp"
    memoKey := "5Jm"
    creationResult := Except.error "insufficient creation credits"
    emailSendResult := { success := true, error := none }
    canSendMemo := true
    memoEnv := exMemoEnvOk }

/-- A requester with no registered email (email-channel delivery must fail). -/
def exUserNoEmail : User :=
  { tokens_allocated := 5
    tokens_used := 0
    tokens_remaining := 5
    email := none
    is_active := true }

def exStateC1 : MonState :=
  { pendingFile := PendingFile.parsed (some [])
    users :=
      { authorized_users := [("alice", exUserNoEmail)]
        metadata := { total_users := 1, total_tokens_allocated := 5, total_tokens_used := 0 } } }

def exEnvC1 : MonitorEnv :=
  { creatingAccount := "faucet"
    creatingMemoKey := none
    masterPassword := "P5abc"
    ownerKey := "5Jo"
    activeKey := "5Ja"
    postingKey := "5Jp"
    memoKey := "5Jm"
    creationResult := Except.ok "T1"
    emailSendResult := { success := true, error := none }
    canSendMemo := false
    memoEnv := exMemoEnvOk }

def exStateC6 : MonState :=
  { pendingFile := PendingFile.parsed (some [])
    users :=
      { authorized_users := [("alice", exUserAlice)]
        metadata := { total_users := 1, total_tokens_allocated := 5, total_tokens_used := 0 } } }

/-- Environment where the email channel succeeds but the memo channel fails
(insufficient HBD balance): with method `both`, exactly one channel succeeds. -/
def exEnvC6 : MonitorEnv :=
  { creatingAccount := "faucet"
    creatingMemoKey := some "5Kmemo"
    masterPassword := "P5abc"
    ownerKey := "5Jo"
    activeKey := "5Ja"
    postingKey := "5Jp"
    memoKey := "5Jm"
    creationResult := Except.ok "T4"
    emailSendResult := { success := true, error := none }
    canSendMemo := false
    memoEnv := exMemoEnvOk }

/-- A request envelope whose inner `requested_username` is the number 1:
mistyped but truthy under JS semantics. -/
def numericUsernameRequest : Json :=
  .obj [("app", .str "hive_account_faucet"), ("version", .str "1.0.0"),
        ("action", .str "create_account_request"),
        ("data", .obj [("requested_username", .num 1), ("delivery_method", .str "email")])]

/-- A fully well-typed valid request envelope. -/
def validStringRequest : Json :=
  .obj [("app", .str "hive_account_faucet"), ("version", .str "1.0.0"),
        ("action", .str "create_account_request"),
        ("data", .obj [("requested_username", .str "newuser1"),
                       ("delivery_method", .str "email")])]

/-- A requester who has used all five allocated tokens. -/
def exAliceSpent : User :=
  { tokens_allocated := 5
    tokens_used := 5
    tokens_remaining := 0
    email := none
    is_active := true }

def exLedgerC3 : UserData :=
  { authorized_users := [("alice", exAliceSpent)]
    metadata := { total_users := 1, total_tokens_allocated := 5, total_tokens_used := 5 } }

def exLedgerC7 : UserData :=
  { authorized_users := [("alice", exUserAlice), ("bob", exAliceSpent)]
    metadata := { total_users := 2, total_tokens_allocated := 10, total_tokens_used := 5 } }

/-! ## Helper lemmas -/

lemma mem_updateAssoc {l : List (String × User)} {k : String} {v : User} {p : String × User}
    (hp : p ∈ updateAssoc l k v) : p = (k, v) ∨ p ∈ l := by
  induction l with
  | nil => simp [updateAssoc] at hp
  | cons q rest ih =>
      obtain ⟨k', v'⟩ := q
      rw [updateAssoc] at hp
      by_cases hq : (k' == k) = true
      · rw [if_pos hq] at hp
        rcases List.mem_cons.mp hp with h | h
        · exact Or.inl (by rw [h, eq_of_beq hq])
        · exact Or.inr (List.mem_cons_of_mem _ h)
      · rw [if_neg hq] at hp
        rcases List.mem_cons.mp hp with h | h
        · exact Or.inr (h ▸ List.mem_cons_self _ _)
        · rcases ih h with h' | h'
          · exact Or.inl h'
          · exact Or.inr (List.mem_cons_of_mem _ h')

lemma lookup_mem {l : List (String × User)} {k : String} {v : User}
    (h : l.lookup k = some v) : (k, v) ∈ l := by
  induction l with
  | nil => simp [List.lookup] at h
  | cons q rest ih =>
      obtain ⟨k', v'⟩ := q
      rw [List.lookup] at h
      by_cases hk : (k == k') = true
      · rw [hk] at h
        simp only [Option.some.injEq] at h
        exact (by rw [eq_of_beq hk, h] : (k, v) = (k', v')) ▸ List.mem_cons_self _ _
      · rw [Bool.not_eq_true] at hk
        rw [hk] at h
        exact List.mem_cons_of_mem _ (ih h)

lemma lookup_updateAssoc_self {l : List (String × User)} {k : String} {v w : User}
    (h : l.lookup k = some w) : (updateAssoc l k v).lookup k = some v := by
  induction l with
  | nil => simp [List.lookup] at h
  | cons q rest ih =>
      obtain ⟨k', v'⟩ := q
      rw [List.lookup] at h
      rw [updateAssoc]
      by_cases hk : k = k'
      · rw [if_pos (beq_iff_eq.mpr hk.symm), List.lookup, beq_iff_eq.mpr hk]
      · have hf : (k == k') = false := beq_eq_false_iff_ne.mpr hk
        have hf' : (k' == k) = false := beq_eq_false_iff_ne.mpr (Ne.symm hk)
        rw [hf] at h
        rw [if_neg (by rw [hf']; exact Bool.false_ne_true), List.lookup, hf]
        exact ih h

lemma lookup_updateAssoc_other {l : List (String × User)} {k k' : String} {v : User}
    (h : ¬ (k' = k)) : (updateAssoc l k v).lookup k' = l.lookup k' := by
  induction l with
  | nil => rfl
  | cons q rest ih =>
      obtain ⟨k₀, v₀⟩ := q
      rw [updateAssoc]
      by_cases h₀ : k₀ = k
      · have hne : (k' == k₀) = false :=
          beq_eq_false_iff_ne.mpr (fun hc => h (hc.trans h₀))
        rw [if_pos (beq_iff_eq.mpr h₀)]
        simp only [List.lookup, hne]
      · rw [if_neg (by rw [beq_eq_false_iff_ne.mpr h₀]; exact Bool.false_ne_true)]
        simp only [List.lookup]
        by_cases hx : k' = k₀
        · simp only [beq_iff_eq.mpr hx]
        · simp only [beq_eq_false_iff_ne.mpr hx, ih]

lemma lookup_append_of_some {l l' : List (String × User)} {k : String} {v : User}
    (h : l.lookup k = some v) : (l ++ l').lookup k = some v := by
  induction l with
  | nil => simp [List.lookup] at h
  | cons q rest ih =>
      obtain ⟨k₀, v₀⟩ := q
      rw [List.lookup] at h
      rw [List.cons_append, List.lookup]
      by_cases hk : (k == k₀) = true
      · rw [hk] at h ⊢; exact h
      · rw [Bool.not_eq_true] at hk
        rw [hk] at h ⊢
        exact ih h

lemma streamRun_fst (l : Int) (fs : List FetchResult) :
    (streamRun l fs).1 = l + countBlocks fs := by
  induction fs generalizing l with
  | nil => simp [streamRun, countBlocks]
  | cons f fs ih =>
      cases f
      all_goals simp [streamRun, streamStep, countBlocks, ih]
      omega

/-- Characterization of a `processAccountRequest` run whose delivery computed
an overall failure: the state keeps the freshly added pending record and the
user ledger untouched, and the outcome is the stranded one. -/
lemma processAccountRequest_overall_false (env : MonitorEnv) (st : MonState)
    (requester username dm : String) (user : User) (txid : String)
    (hauth : checkAuthorization st.users requester = .granted user)
    (hcre : env.creationResult = .ok txid)
    (hfail : overallSuccess dm (emailDelivery env user dm).success
      (memoDelivery env requester username dm).success = false) :
    processAccountRequest env st requester username dm =
      ({ st with
         pendingFile := addPending st.pendingFile (pendingRecordFor env requester username txid) },
       .stranded) := by
  unfold processAccountRequest
  rw [hauth, hcre]
  simp only [hfail, Bool.false_eq_true, if_false]

lemma strictEqStr_iff (v : Json) (s : String) : strictEqStr v s = true ↔ v = Json.str s := by
  cases v <;> simp [strictEqStr]

lemma validateRequest_eq_true_iff (data : Json) :
    validateRequest data = true ↔
      (getField data "app" = Json.str "hive_account_faucet" ∧
       getField data "version" = Json.str "1.0.0" ∧
       getField data "action" = Json.str "create_account_request" ∧
       truthy (getField data "data") = true ∧
       truthy (getField (getField data "data") "requested_username") = true ∧
       truthy (getField (getField data "data") "delivery_method") = true) := by
  simp [validateRequest, strictEqStr_iff, and_assoc]

lemma sumInv_useToken (d : UserData) (username : String) (hd : SumInv d) :
    SumInv (useToken d username).1 := by
  unfold useToken
  rcases hl : d.authorized_users.lookup username with _ | user
  · exact hd
  · dsimp only
    by_cases hrem : user.tokens_remaining ≤ 0
    · rw [if_pos hrem]
      exact hd
    · rw [if_neg hrem]
      intro p hp
      rcases mem_updateAssoc hp with h | h
      · subst h
        have hs := hd _ (lookup_mem hl)
        dsimp only at hs ⊢
        omega
      · exact hd _ h

lemma sumInv_addUser (d : UserData) (username : String) (tokens : Int)
    (email : Option String) (hd : SumInv d) : SumInv (addUser d username tokens email).1 := by
  unfold addUser
  rcases hl : d.authorized_users.lookup username with _ | user
  · intro p hp
    rcases List.mem_append.mp hp with h | h
    · exact hd _ h
    · rcases List.mem_singleton.mp h with h'
      subst h'
      dsimp only
      omega
  · exact hd

lemma sumInv_giveTokens (d : UserData) (username : String) (delta : Int)
    (hd : SumInv d) : SumInv (giveTokens d username delta).1 := by
  unfold giveTokens
  rcases hl : d.authorized_users.lookup username with _ | user
  · exact hd
  · intro p hp
    rcases mem_updateAssoc hp with h | h
    · subst h
      have hs := hd _ (lookup_mem hl)
      dsimp only at hs ⊢
      omega
    · exact hd _ h

lemma sumInv_setTokens (d : UserData) (username : String) (total : Int)
    (hd : SumInv d) : SumInv (setTokens d username total).1 := by
  unfold setTokens
  rcases hl : d.authorized_users.lookup username with _ | user
  · exact hd
  · intro p hp
    rcases mem_updateAssoc hp with h | h
    · subst h
      dsimp only
      omega
    · exact hd _ h

lemma usedMono_refl (d : UserData) : UsedMono d d := by
  intro k u u' h1 h2
  rw [h1] at h2
  exact (Option.some.inj h2) ▸ le_refl _

lemma usedMono_useToken (d : UserData) (username : String) :
    UsedMono d (useToken d username).1 := by
  unfold useToken
  rcases hl : d.authorized_users.lookup username with _ | user
  · exact usedMono_refl d
  · dsimp only
    by_cases hrem : user.tokens_remaining ≤ 0
    · rw [if_pos hrem]
      exact usedMono_refl d
    · rw [if_neg hrem]
      intro k u u' h1 h2
      by_cases hk : k = username
      · subst hk
        rw [hl] at h1
        have h2' := lookup_updateAssoc_self (v := { user with
          tokens_used := user.tokens_used + 1,
          tokens_remaining := user.tokens_remaining - 1 }) hl
        rw [h2'] at h2
        rw [← Option.some.inj h1, ← Option.some.inj h2]
        dsimp only
        omega
      · rw [lookup_updateAssoc_other hk] at h2
        rw [h1] at h2
        exact (Option.some.inj h2) ▸ le_refl _

lemma usedMono_addUser (d : UserData) (username : String) (tokens : Int)
    (email : Option String) : UsedMono d (addUser d username tokens email).1 := by
  unfold addUser
  rcases hl : d.authorized_users.lookup username with _ | user
  · intro k u u' h1 h2
    rw [lookup_append_of_some h1] at h2
    exact (Option.some.inj h2) ▸ le_refl _
  · exact usedMono_refl d

lemma usedMono_giveTokens (d : UserData) (username : String) (delta : Int) :
    UsedMono d (giveTokens d username delta).1 := by
  unfold giveTokens
  rcases hl : d.authorized_users.lookup username with _ | user
  · exact usedMono_refl d
  · intro k u u' h1 h2
    by_cases hk : k = username
    · subst hk
      rw [hl] at h1
      have h2' := lookup_updateAssoc_self (v := { user with
        tokens_allocated := user.tokens_allocated + delta,
        tokens_remaining := user.tokens_remaining + delta }) hl
      rw [h2'] at h2
      rw [← Option.some.inj h1, ← Option.some.inj h2]
    · rw [lookup_updateAssoc_other hk] at h2
      rw [h1] at h2
      exact (Option.some.inj h2) ▸ le_refl _

lemma usedMono_setTokens (d : UserData) (username : String) (total : Int) :
    UsedMono d (setTokens d username total).1 := by
  unfold setTokens
  rcases hl : d.authorized_users.lookup username with _ | user
  · exact usedMono_refl d
  · intro k u u' h1 h2
    by_cases hk : k = username
    · subst hk
      rw [hl] at h1
      have h2' := lookup_updateAssoc_self (v := { user with
        tokens_allocated := total,
        tokens_remaining := total - user.tokens_used }) hl
      rw [h2'] at h2
      rw [← Option.some.inj h1, ← Option.some.inj h2]
    · rw [lookup_updateAssoc_other hk] at h2
      rw [h1] at h2
      exact (Option.some.inj h2) ▸ le_refl _

lemma remNonneg_useToken (d : UserData) (username : String) (hd : RemNonneg d) :
    RemNonneg (useToken d username).1 := by
  unfold useToken
  rcases hl : d.authorized_users.lookup username with _ | user
  · exact hd
  · dsimp only
    by_cases hrem : user.tokens_remaining ≤ 0
    · rw [if_pos hrem]
      exact hd
    · rw [if_neg hrem]
      intro p hp
      rcases mem_updateAssoc hp with h | h
      · subst h
        dsimp only
        omega
      · exact hd _ h

lemma remNonneg_addUser (d : UserData) (username : String) (tokens : Int)
    (email : Option String) (hd : RemNonneg d) (h0 : 0 ≤ tokens) :
    RemNonneg (addUser d username tokens email).1 := by
  unfold addUser
  rcases hl : d.authorized_users.lookup username with _ | user
  · intro p hp
    rcases List.mem_append.mp hp with h | h
    · exact hd _ h
    · rcases List.mem_singleton.mp h with h'
      subst h'
      exact h0
  · exact hd

lemma remNonneg_giveTokens (d : UserData) (username : String) (delta : Int)
    (hd : RemNonneg d) (h0 : 0 ≤ delta) : RemNonneg (giveTokens d username delta).1 := by
  unfold giveTokens
  rcases hl : d.authorized_users.lookup username with _ | user
  · exact hd
  · intro p hp
    rcases mem_updateAssoc hp with h | h
    · subst h
      have := hd _ (lookup_mem hl)
      dsimp only at this ⊢
      omega
    · exact hd _ h

lemma remNonneg_setTokens (d : UserData) (username : String) (total : Int)
    (hd : RemNonneg d)
    (hle : ∀ u, d.authorized_users.lookup username = some u → u.tokens_used ≤ total) :
    RemNonneg (setTokens d username total).1 := by
  unfold setTokens
  rcases hl : d.authorized_users.lookup username with _ | user
  · exact hd
  · intro p hp
    rcases mem_updateAssoc hp with h | h
    · subst h
      have := hle user hl
      dsimp only
      omega
    · exact hd _ h

/-! ## Claims -/

/-- Claim C10: if the pending-credentials file is missing, unreadable, or
malformed JSON, `loadPending` returns the empty list rather than raising, and
the next `addPending` rewrites the file with a pending list holding only the
newly added record (records the corrupted file may have held are gone). -/
theorem corrupt_pending_file_resets_to_singleton :
    loadPending PendingFile.corrupt = [] ∧
    loadPending (PendingFile.parsed none) = [] ∧
    ∀ r : PendingRecord, addPending PendingFile.corrupt r = savePending [r] :=
  ⟨rfl, rfl, fun _ => rfl⟩

/-- Claim C2 counterexample: the write performed by `addPending` (through
`savePending`) is a single direct `writeFileSync` to the pending-credentials
file; no temp-file write and no atomic rename occur, so the
temp-file-then-atomic-rename pattern claimed by the spec is absent. -/
theorem savePending_lacks_temp_rename :
    usesTempThenRename recoveryFile (addPendingActions PendingFile.corrupt exRecordC2) = false ∧
    writesDirectly recoveryFile (addPendingActions PendingFile.corrupt exRecordC2) = true ∧
    renamesOnto recoveryFile (addPendingActions PendingFile.corrupt exRecordC2) = false := by
  decide

/-- Claim C2 amended: every mutation of the pending-credentials file rewrites
it in full, but by one direct write of the whole new list to the target path —
not via a temp-file-then-atomic-rename; that pattern is used only by
`saveLastBlock` for the block-cursor file. -/
theorem pending_full_rewrite_direct_cursor_atomic (fs : PendingFile)
    (r : PendingRecord) (u : String) (payload : String) :
    addPendingActions fs r = [FsAct.write recoveryFile (loadPending fs ++ [r])] ∧
    removePendingActions fs u =
      [FsAct.write recoveryFile ((loadPending fs).filter (fun q => q.username != u))] ∧
    usesTempThenRename recoveryFile (addPendingActions fs r) = false ∧
    usesTempThenRename recoveryFile (removePendingActions fs u) = false ∧
    usesTempThenRename lastBlockFile (saveLastBlockActions payload) = true := by
  refine ⟨rfl, rfl, ?_, ?_, ?_⟩ <;>
    simp [addPendingActions, removePendingActions, savePendingActions, saveLastBlockActions,
      usesTempThenRename, writesDirectly, renamesOnto, recoveryFile, lastBlockFile]

/-- Claim C8: a miss (no block yet) or a caught error never advances the
cursor, never stops the loop and never re-raises; the next iteration requests
the same height again; the cursor advances exactly once per fetched and fully
processed block. -/
theorem stream_cursor_never_advances_on_miss (l : Int) (m : String) (b : Nat)
    (f : FetchResult) (fs : List FetchResult) :
    streamStep l FetchResult.noBlock =
      { lastProcessedBlock := l, sleptMs := some 3000, raised := none } ∧
    streamStep l (FetchResult.fetchError m) =
      { lastProcessedBlock := l, sleptMs := some 5000, raised := none } ∧
    (streamStep l (FetchResult.block b)).lastProcessedBlock = l + 1 ∧
    ((streamStep l f).lastProcessedBlock = l + 1 ↔ ∃ n, f = FetchResult.block n) ∧
    (streamStep l f).raised = none ∧
    ((f = FetchResult.noBlock ∨ f = FetchResult.fetchError m) →
      (streamRun l (f :: fs)).2 = (l + 1) :: (streamRun l fs).2) ∧
    (streamRun l fs).1 = l + countBlocks fs := by
  refine ⟨rfl, rfl, rfl, ?_, ?_, ?_, streamRun_fst l fs⟩
  · cases f <;> simp [streamStep]
  · cases f <;> rfl
  · rintro (h | h) <;> subst h <;> simp [streamRun, streamStep]

/-- Claim C8 witness: after a miss at cursor 100, height 101 is requested
again by the next iteration, and a run with one successful block advances the
cursor by exactly one. -/
theorem stream_cursor_never_advances_on_miss_witness :
    (streamRun 100 [FetchResult.noBlock, FetchResult.block 2]).2 = [101, 101] ∧
    (streamRun 100 [FetchResult.noBlock, FetchResult.block 2]).1 = 101 := by
  refine ⟨?_, ?_⟩
  · rw [(stream_cursor_never_advances_on_miss 100 "timeout" 2 FetchResult.noBlock
      [FetchResult.block 2]).2.2.2.2.2.1 (Or.inl rfl)]
    rfl
  · rw [(stream_cursor_never_advances_on_miss 100 "timeout" 2 FetchResult.noBlock
      [FetchResult.noBlock, FetchResult.block 2]).2.2.2.2.2.2]
    decide

/-- Claim C5: `sendAccountMemo` never resolves success when the encrypted memo
contains the plaintext username or the master password as a substring; in that
case the channel fails and no transfer is handed to the broadcast call. -/
theorem memo_leak_never_succeeds (env : MemoEnv) (creating recipient : String)
    (acct : MemoAccountData) (m : String)
    (henc : env.encodeResult = Except.ok m)
    (hleak : (jsIncludes m acct.username || jsIncludes m acct.masterPassword) = true) :
    (sendAccountMemo env creating recipient acct).1.success = false ∧
    (sendAccountMemo env creating recipient acct).2 = [] := by
  unfold sendAccountMemo
  rcases hl : env.recipientLookup with e | o
  · exact ⟨rfl, rfl⟩
  · cases o with
    | none => exact ⟨rfl, rfl⟩
    | some key =>
        rw [henc]
        simp [hleak]

/-- Claim C5 witness: with a leaked plaintext username in the encoded memo,
the channel result is a failure and the broadcast list is empty. -/
theorem memo_leak_never_succeeds_witness :
    (sendAccountMemo exMemoEnvC5 "faucet" "alice"
      { username := "newuser3", masterPassword := "P5abc" }).1.success = false ∧
    (sendAccountMemo exMemoEnvC5 "faucet" "alice"
      { username := "newuser3", masterPassword := "P5abc" }).2 = [] :=
  memo_leak_never_succeeds exMemoEnvC5 "faucet" "alice"
    { username := "newuser3", masterPassword := "P5abc" }
    "#Account created: newuser3 pw P5abc" rfl (by decide)

/-- Claim C4: when account creation fails, `processAccountRequest` returns
with the pending store and the user ledger exactly as they were: no pending
record is added and no token is consumed. -/
theorem creation_failure_leaves_state_unchanged (env : MonitorEnv) (st : MonState)
    (requester username dm e : String)
    (herr : env.creationResult = Except.error e) :
    (processAccountRequest env st requester username dm).1 = st ∧
    loadPending (processAccountRequest env st requester username dm).1.pendingFile =
      loadPending st.pendingFile ∧
    (processAccountRequest env st requester username dm).1.users = st.users := by
  unfold processAccountRequest
  rcases ha : checkAuthorization st.users requester with r | user
  · exact ⟨rfl, rfl, rfl⟩
  · rw [herr]
    exact ⟨rfl, rfl, rfl⟩

/-- Claim C4 witness: a concrete failed creation leaves the concrete state
untouched. -/
theorem creation_failure_leaves_state_unchanged_witness :
    (processAccountRequest exEnvC4 exStateC4 "alice" "newuser2" "email").1 = exStateC4 ∧
    loadPending (processAccountRequest exEnvC4 exStateC4 "alice" "newuser2" "email").1.pendingFile =
      loadPending exStateC4.pendingFile ∧
    (processAccountRequest exEnvC4 exStateC4 "alice" "newuser2" "email").1.users =
      exStateC4.users :=
  creation_failure_leaves_state_unchanged exEnvC4 exStateC4 "alice" "newuser2" "email"
    "insufficient creation credits" rfl

/-- Claim C1: when provisioning succeeds but the delivery step computes an
overall failure, the run ends stranded: the pending-credentials store still
holds the full record for the requested name and the requester's token counts
are untouched (`useToken` was never reached, `removePending` never called). -/
theorem stranded_delivery_retains_pending_and_tokens (env : MonitorEnv) (st : MonState)
    (requester username dm : String) (user : User) (txid : String)
    (hauth : checkAuthorization st.users requester = AuthCheck.granted user)
    (hcre : env.creationResult = Except.ok txid)
    (hfail : overallSuccess dm (emailDelivery env user dm).success
      (memoDelivery env requester username dm).success = false) :
    (processAccountRequest env st requester username dm).2 = Outcome.stranded ∧
    (processAccountRequest env st requester username dm).1.users = st.users ∧
    pendingRecordFor env requester username txid ∈
      loadPending (processAccountRequest env st requester username dm).1.pendingFile ∧
    (pendingRecordFor env requester username txid).username = username ∧
    (pendingRecordFor env requester username txid).masterPassword = env.masterPassword := by
  rw [processAccountRequest_overall_false env st requester username dm user txid hauth hcre hfail]
  refine ⟨rfl, rfl, ?_, rfl, rfl⟩
  simp [addPending, savePending, loadPending]

/-- Claim C1 witness: a concrete stranded run keeps the record and the user
ledger. -/
theorem stranded_delivery_retains_pending_and_tokens_witness :
    (processAccountRequest exEnvC1 exStateC1 "alice" "newuser3" "email").2 = Outcome.stranded ∧
    (processAccountRequest exEnvC1 exStateC1 "alice" "newuser3" "email").1.users =
      exStateC1.users ∧
    pendingRecordFor exEnvC1 "alice" "newuser3" "T1" ∈
      loadPending (processAccountRequest exEnvC1 exStateC1 "alice" "newuser3" "email").1.pendingFile ∧
    (pendingRecordFor exEnvC1 "alice" "newuser3" "T1").username = "newuser3" ∧
    (pendingRecordFor exEnvC1 "alice" "newuser3" "T1").masterPassword =
      exEnvC1.masterPassword :=
  stranded_delivery_retains_pending_and_tokens exEnvC1 exStateC1 "alice" "newuser3" "email"
    exUserNoEmail "T1" (by decide) rfl (by decide)

/-- Claim C6: with method `both` the overall success is the conjunction of the
two channel results; with a single-channel method that channel's success alone
decides (the unrequested channel's result is the inert failure). When method is
`both` and exactly one channel succeeds, the run is stranded and the pending
record for the name is still present. -/
theorem overall_success_policy (env : MonitorEnv) (st : MonState)
    (requester username dm : String) (user : User) (txid : String) (e m : Bool) :
    overallSuccess "both" e m = (e && m) ∧
    (dm ≠ "both" → overallSuccess dm e m = (e || m)) ∧
    memoDelivery env requester username "email" = { success := false, error := none } ∧
    emailDelivery env user "hive_memo" = { success := false, error := none } ∧
    (checkAuthorization st.users requester = AuthCheck.granted user →
     env.creationResult = Except.ok txid →
     (emailDelivery env user "both").success ≠ (memoDelivery env requester username "both").success →
     overallSuccess "both" (emailDelivery env user "both").success
       (memoDelivery env requester username "both").success = false ∧
     (processAccountRequest env st requester username "both").2 = Outcome.stranded ∧
     pendingRecordFor env requester username txid ∈
       loadPending (processAccountRequest env st requester username "both").1.pendingFile) := by
  refine ⟨by simp [overallSuccess], ?_, ?_, ?_, ?_⟩
  · intro h
    simp [overallSuccess, beq_eq_false_iff_ne.mpr h]
  · simp [memoDelivery]
  · simp [emailDelivery]
  · intro hauth hcre hne
    have hfail : overallSuccess "both" (emailDelivery env user "both").success
        (memoDelivery env requester username "both").success = false := by
      rcases Bool.eq_false_or_eq_true (emailDelivery env user "both").success with h1 | h1 <;>
        rcases Bool.eq_false_or_eq_true
          (memoDelivery env requester username "both").success with h2 | h2 <;>
        simp_all [overallSuccess]
    refine ⟨hfail, ?_, ?_⟩
    · rw [processAccountRequest_overall_false env st requester username "both" user txid
        hauth hcre hfail]
    · rw [processAccountRequest_overall_false env st requester username "both" user txid
        hauth hcre hfail]
      simp [addPending, savePending, loadPending]

/-- Claim C6 witness: email succeeds, memo fails, method `both`: the run is
stranded and the pending record for the name survives. -/
theorem overall_success_policy_witness :
    (processAccountRequest exEnvC6 exStateC6 "alice" "newuser4" "both").2 = Outcome.stranded ∧
    pendingRecordFor exEnvC6 "alice" "newuser4" "T4" ∈
      loadPending (processAccountRequest exEnvC6 exStateC6 "alice" "newuser4" "both").1.pendingFile := by
  have h := (overall_success_policy exEnvC6 exStateC6 "alice" "newuser4" "both" exUserAlice
    "T4" true true).2.2.2.2 (by decide) rfl (by decide)
  exact ⟨h.2.1, h.2.2⟩

/-- Claim C9 counterexample: a request whose `requested_username` is the
number 1 — mistyped, not a string — still validates, because JS truthiness
accepts any non-zero number; so a mistyped field does not always make
`validateRequest` return false. -/
theorem validateRequest_accepts_mistyped_field :
    validateRequest numericUsernameRequest = true ∧
    getField (getField numericUsernameRequest "data") "requested_username" = Json.num 1 := by
  constructor
  · decide
  · rfl

/-- Claim C9 amended: `validateRequest data` is true iff `app`, `version` and
`action` strictly equal the fixed strings and `data.data` and its
`requested_username` and `delivery_method` fields are truthy; when those two
inner fields are strings this means exactly that they are non-empty, but a
mistyped truthy value (e.g. a non-zero number) also passes. -/
theorem validateRequest_characterization (data : Json) (u m : String)
    (hu : getField (getField data "data") "requested_username" = Json.str u)
    (hm : getField (getField data "data") "delivery_method" = Json.str m) :
    validateRequest data = true ↔
      (getField data "app" = Json.str "hive_account_faucet" ∧
       getField data "version" = Json.str "1.0.0" ∧
       getField data "action" = Json.str "create_account_request" ∧
       truthy (getField data "data") = true ∧ u ≠ "" ∧ m ≠ "") := by
  rw [validateRequest_eq_true_iff, hu, hm]
  simp [truthy]

/-- Claim C9 witness: the fully string-typed valid request validates, via the
characterization. -/
theorem validateRequest_characterization_witness :
    validateRequest validStringRequest = true :=
  (validateRequest_characterization validStringRequest "newuser1" "email" rfl rfl).mpr
    ⟨rfl, rfl, rfl, rfl, by decide, by decide⟩

/-- Claim C7: the per-requester identity used + remaining = allocated is
preserved by every Quota Ledger mutation (useToken, addUser, giveTokens,
setTokens), for every requester record. -/
theorem quota_sum_invariant (d : UserData) (username : String)
    (tokens delta total : Int) (email : Option String) (hd : SumInv d) :
    SumInv (useToken d username).1 ∧
    SumInv (addUser d username tokens email).1 ∧
    SumInv (giveTokens d username delta).1 ∧
    SumInv (setTokens d username total).1 :=
  ⟨sumInv_useToken d username hd, sumInv_addUser d username tokens email hd,
   sumInv_giveTokens d username delta hd, sumInv_setTokens d username total hd⟩

/-- Claim C7 witness: the identity holds after each mutation of a concrete
two-requester ledger. -/
theorem quota_sum_invariant_witness :
    SumInv (useToken exLedgerC7 "alice").1 ∧
    SumInv (addUser exLedgerC7 "carol" 3 none).1 ∧
    SumInv (giveTokens exLedgerC7 "alice" 2).1 ∧
    SumInv (setTokens exLedgerC7 "bob" 7).1 := by
  have h := quota_sum_invariant exLedgerC7 "alice" 3 2 7 none (by decide)
  have h' := quota_sum_invariant exLedgerC7 "carol" 3 2 7 none (by decide)
  have h'' := quota_sum_invariant exLedgerC7 "bob" 3 2 7 none (by decide)
  exact ⟨h.1, h'.2.1, h.2.2.1, h''.2.2.2⟩

/-- Claim C3 counterexample: for requester alice with `tokens_remaining = 0 ≥ 0`
and `tokens_used = 5 ≥ 0`, the mutation `setTokens(alice, 3)` leaves
`tokens_remaining = 3 - 5 = -2 < 0`: the non-negativity half of the claim
fails on `setTokens`. -/
theorem setTokens_breaks_remaining_nonneg :
    RemNonneg exLedgerC3 ∧
    (∀ p ∈ exLedgerC3.authorized_users, 0 ≤ p.2.tokens_used) ∧
    ((setTokens exLedgerC3 "alice" 3).1.authorized_users.lookup "alice").map
      User.tokens_remaining = some (-2) := by
  decide

/-- Claim C3 amended: `tokens_used` never decreases under any of the four
mutations; `tokens_remaining ≥ 0` is preserved unconditionally by `useToken`,
and by `addUser` / `giveTokens` / `setTokens` only under the additional
conditions that the granted amount is non-negative, the delta is non-negative,
and the new total is at least the requester's `tokens_used`, respectively —
`setTokens` with a smaller total (or `giveTokens` with a negative delta,
both reachable from the admin CLI) drives `tokens_remaining` negative. -/
theorem quota_used_monotone_remaining_guarded (d : UserData) (username : String)
    (tokens delta total : Int) (email : Option String) :
    UsedMono d (useToken d username).1 ∧
    UsedMono d (addUser d username tokens email).1 ∧
    UsedMono d (giveTokens d username delta).1 ∧
    UsedMono d (setTokens d username total).1 ∧
    (RemNonneg d → RemNonneg (useToken d username).1) ∧
    (RemNonneg d → 0 ≤ tokens → RemNonneg (addUser d username tokens email).1) ∧
    (RemNonneg d → 0 ≤ delta → RemNonneg (giveTokens d username delta).1) ∧
    (RemNonneg d →
      (∀ u, d.authorized_users.lookup username = some u → u.tokens_used ≤ total) →
      RemNonneg (setTokens d username total).1) :=
  ⟨usedMono_useToken d username, usedMono_addUser d username tokens email,
   usedMono_giveTokens d username delta, usedMono_setTokens d username total,
   remNonneg_useToken d username, remNonneg_addUser d username tokens email,
   remNonneg_giveTokens d username delta, remNonneg_setTokens d username total⟩

/-- Claim C3 amended witness: on the concrete spent ledger, `useToken` keeps
`tokens_used` monotone and `setTokens` to a total at least `tokens_used`
keeps `tokens_remaining` non-negative. -/
theorem quota_used_monotone_remaining_guarded_witness :
    UsedMono exLedgerC3 (useToken exLedgerC3 "alice").1 ∧
    RemNonneg (setTokens exLedgerC3 "alice" 7).1 := by
  have h := quota_used_monotone_remaining_guarded exLedgerC3 "alice" 3 2 7 none
  refine ⟨h.1, h.2.2.2.2.2.2.2 (by decide) ?_⟩
  intro u hu
  rw [show exLedgerC3.authorized_users.lookup "alice" = some exAliceSpent from rfl] at hu
  cases hu
  decide

end Faucet
